import Mathlib

/-!
# Verification of the engine's linear-algebra and scene core

A shallow embedding of the rendering engine's math core (`src/Math/Math.h`,
`MathUtils.h`, `Vector3.h`, `Vector4.h`, `Matrix4.h`, `Quaternion.h`) and of
the camera/scene container logic (`src/Graphics/Camera.cpp`,
`src/Graphics/Scene.cpp`), together with proofs of the specification's
testable properties about them.

The C++ code computes in IEEE-754 `f32`; the embedding idealises `f32`
arithmetic as exact real arithmetic, which is the reading under which the
spec's algebraic claims (inverse times matrix is the identity, quaternion
round-trips, interpolation endpoints) are settled.  Every definition is a
direct transcription of the corresponding C++ function, with the flat
`m[16]` matrix storage kept as sixteen `m0 .. m15` fields
(`mm[i][j] = m[4*i+j]`).
-/

namespace Engine

noncomputable section

namespace Math

/-- `Math::EPSILON` from `Math.h`: `1.0e-6f`. -/
def EPSILON : ℝ := 1 / 1000000

/-- `Math::PI` from `Math.h` (the f32 constant approximating pi; idealised
as the real number pi). -/
def PI : ℝ := Real.pi

/-- `Math::DEG2RAD = PI / 180.0f`. -/
def DEG2RAD : ℝ := PI / 180

/-- `Math::ToRadians(degrees) = degrees * DEG2RAD`. -/
def ToRadians (degrees : ℝ) : ℝ := degrees * DEG2RAD

/-- `Math::Clamp(value, min, max)` from `Math.h`:
`(value < min) ? min : (value > max) ? max : value`. -/
def Clamp (value mn mx : ℝ) : ℝ :=
  if value < mn then mn else if value > mx then mx else value

/-- `Math::NearZero(value, epsilon = EPSILON)` from `Math.h`:
`fabs(value) <= epsilon`.  Every call site in the embedded code uses the
default epsilon. -/
def NearZero (value : ℝ) : Prop := |value| ≤ EPSILON

instance (value : ℝ) : Decidable (NearZero value) := by
  unfold NearZero
  infer_instance

/-- `Math::Lerp(a, b, t) = a + t * (b - a)` from `Math.h`. -/
def Lerp (a b t : ℝ) : ℝ := a + t * (b - a)

end Math

/-- `Vector3` from `Vector3.h`: three `f32` components. -/
@[ext]
structure Vector3 where
  x : ℝ
  y : ℝ
  z : ℝ

namespace Vector3

/-- `Vector3::Zero`: the zero vector (declared in `Vector3.h`; its value is
the vector of zeros, as the spec's zero-vector properties state). -/
def Zero : Vector3 := ⟨0, 0, 0⟩

/-- `Vector3::Up`. Modelled from the spec: the up axis `(0, 1, 0)`
(`Camera.h`: the up vector is assumed to be `(0, 1, 0)`); the translation
unit defining the static constants is not among the repository's files. -/
def Up : Vector3 := ⟨0, 1, 0⟩

/-- `Vector3::Forward`. Modelled from the spec: the camera looks down the
negative Z axis in a right-handed basis, so forward is `(0, 0, -1)`; the
translation unit defining the static constants is not among the
repository's files. -/
def Forward : Vector3 := ⟨0, 0, -1⟩

/-- `Vector3::operator+`. -/
def add (a b : Vector3) : Vector3 := ⟨a.x + b.x, a.y + b.y, a.z + b.z⟩

/-- `Vector3::operator-` (binary). -/
def sub (a b : Vector3) : Vector3 := ⟨a.x - b.x, a.y - b.y, a.z - b.z⟩

/-- `Vector3::operator*(f32 scalar)`. -/
def smul (a : Vector3) (s : ℝ) : Vector3 := ⟨a.x * s, a.y * s, a.z * s⟩

/-- `Vector3::LengthSquared() = x*x + y*y + z*z`. -/
def LengthSquared (v : Vector3) : ℝ := v.x * v.x + v.y * v.y + v.z * v.z

/-- `Vector3::Length() = Math::Sqrt(LengthSquared())`. -/
def Length (v : Vector3) : ℝ := Real.sqrt v.LengthSquared

/-- `Vector3::Normalized()` (a copy put through `Normalize()`, which
returns the vector unchanged when `Math::NearZero(len)` and otherwise
divides every component by `len`). -/
def Normalized (v : Vector3) : Vector3 :=
  if Math.NearZero v.Length then v
  else ⟨v.x / v.Length, v.y / v.Length, v.z / v.Length⟩

/-- `Vector3::Dot(a, b)`. -/
def Dot (a b : Vector3) : ℝ := a.x * b.x + a.y * b.y + a.z * b.z

/-- `Vector3::Cross(a, b)`. -/
def Cross (a b : Vector3) : Vector3 :=
  ⟨a.y * b.z - a.z * b.y, a.z * b.x - a.x * b.z, a.x * b.y - a.y * b.x⟩

end Vector3

/-- `Vector4` from `Vector4.h`: four `f32` components. -/
@[ext]
structure Vector4 where
  x : ℝ
  y : ℝ
  z : ℝ
  w : ℝ

namespace Vector4

/-- `Vector4(const Vector3& vec, f32 w)`. -/
def ofVector3 (v : Vector3) (w : ℝ) : Vector4 := ⟨v.x, v.y, v.z, w⟩

/-- `Vector4::XYZ()`. -/
def XYZ (v : Vector4) : Vector3 := ⟨v.x, v.y, v.z⟩

/-- `Vector4::Homogenized()`: returns `(x, y, z)` when `NearZero(w)`,
otherwise multiplies the first three components by `1/w`. -/
def Homogenized (v : Vector4) : Vector3 :=
  if Math.NearZero v.w then ⟨v.x, v.y, v.z⟩
  else ⟨v.x * (1 / v.w), v.y * (1 / v.w), v.z * (1 / v.w)⟩

end Vector4

/-- `Matrix4` from `Matrix4.h`: sixteen `f32` entries in the flat order of
the `m[16]` array, with the 2D view `mm[i][j] = m[4*i+j]`. -/
@[ext]
structure Matrix4 where
  m0 : ℝ
  m1 : ℝ
  m2 : ℝ
  m3 : ℝ
  m4 : ℝ
  m5 : ℝ
  m6 : ℝ
  m7 : ℝ
  m8 : ℝ
  m9 : ℝ
  m10 : ℝ
  m11 : ℝ
  m12 : ℝ
  m13 : ℝ
  m14 : ℝ
  m15 : ℝ

namespace Matrix4

/-- `Matrix4::Identity()` (the default constructor calls `SetIdentity()`). -/
def Identity : Matrix4 := ⟨1, 0, 0, 0, 0, 1, 0, 0, 0, 0, 1, 0, 0, 0, 0, 1⟩

/-- `Matrix4::operator()(row, col) = mm[row][col] = m[4*row+col]`. -/
def entry (M : Matrix4) (r c : Fin 4) : ℝ :=
  match r, c with
  | 0, 0 => M.m0
  | 0, 1 => M.m1
  | 0, 2 => M.m2
  | 0, 3 => M.m3
  | 1, 0 => M.m4
  | 1, 1 => M.m5
  | 1, 2 => M.m6
  | 1, 3 => M.m7
  | 2, 0 => M.m8
  | 2, 1 => M.m9
  | 2, 2 => M.m10
  | 2, 3 => M.m11
  | 3, 0 => M.m12
  | 3, 1 => M.m13
  | 3, 2 => M.m14
  | 3, 3 => M.m15

/-- `Matrix4::operator*(const Matrix4&)`:
`result.mm[i][j] = sum_k mm[i][k] * other.mm[k][j]`, written out on the
flat storage (`mm[i][j] = m[4*i+j]`). -/
def mul (a b : Matrix4) : Matrix4 :=
  ⟨a.m0 * b.m0 + a.m1 * b.m4 + a.m2 * b.m8 + a.m3 * b.m12,
   a.m0 * b.m1 + a.m1 * b.m5 + a.m2 * b.m9 + a.m3 * b.m13,
   a.m0 * b.m2 + a.m1 * b.m6 + a.m2 * b.m10 + a.m3 * b.m14,
   a.m0 * b.m3 + a.m1 * b.m7 + a.m2 * b.m11 + a.m3 * b.m15,
   a.m4 * b.m0 + a.m5 * b.m4 + a.m6 * b.m8 + a.m7 * b.m12,
   a.m4 * b.m1 + a.m5 * b.m5 + a.m6 * b.m9 + a.m7 * b.m13,
   a.m4 * b.m2 + a.m5 * b.m6 + a.m6 * b.m10 + a.m7 * b.m14,
   a.m4 * b.m3 + a.m5 * b.m7 + a.m6 * b.m11 + a.m7 * b.m15,
   a.m8 * b.m0 + a.m9 * b.m4 + a.m10 * b.m8 + a.m11 * b.m12,
   a.m8 * b.m1 + a.m9 * b.m5 + a.m10 * b.m9 + a.m11 * b.m13,
   a.m8 * b.m2 + a.m9 * b.m6 + a.m10 * b.m10 + a.m11 * b.m14,
   a.m8 * b.m3 + a.m9 * b.m7 + a.m10 * b.m11 + a.m11 * b.m15,
   a.m12 * b.m0 + a.m13 * b.m4 + a.m14 * b.m8 + a.m15 * b.m12,
   a.m12 * b.m1 + a.m13 * b.m5 + a.m14 * b.m9 + a.m15 * b.m13,
   a.m12 * b.m2 + a.m13 * b.m6 + a.m14 * b.m10 + a.m15 * b.m14,
   a.m12 * b.m3 + a.m13 * b.m7 + a.m14 * b.m11 + a.m15 * b.m15⟩

/-- `Matrix4::operator*(const Vector4&)` (matrix times column vector). -/
def mulVec4 (M : Matrix4) (v : Vector4) : Vector4 :=
  ⟨M.m0 * v.x + M.m1 * v.y + M.m2 * v.z + M.m3 * v.w,
   M.m4 * v.x + M.m5 * v.y + M.m6 * v.z + M.m7 * v.w,
   M.m8 * v.x + M.m9 * v.y + M.m10 * v.z + M.m11 * v.w,
   M.m12 * v.x + M.m13 * v.y + M.m14 * v.z + M.m15 * v.w⟩

/-- `Matrix4::TransformPoint(point) = (*this * Vector4(point, 1.0f)).Homogenized()`. -/
def TransformPoint (M : Matrix4) (point : Vector3) : Vector3 :=
  (M.mulVec4 (Vector4.ofVector3 point 1)).Homogenized

/-- `Matrix4::Determinant()`: the cofactor expansion exactly as written in
`Matrix4.h`. -/
def Determinant (M : Matrix4) : ℝ :=
  M.m0 * (M.m5 * (M.m10 * M.m15 - M.m11 * M.m14) -
          M.m6 * (M.m9 * M.m15 - M.m11 * M.m13) +
          M.m7 * (M.m9 * M.m14 - M.m10 * M.m13)) -
  M.m1 * (M.m4 * (M.m10 * M.m15 - M.m11 * M.m14) -
          M.m6 * (M.m8 * M.m15 - M.m11 * M.m12) +
          M.m7 * (M.m8 * M.m14 - M.m10 * M.m12)) +
  M.m2 * (M.m4 * (M.m9 * M.m15 - M.m11 * M.m13) -
          M.m5 * (M.m8 * M.m15 - M.m11 * M.m12) +
          M.m7 * (M.m8 * M.m13 - M.m9 * M.m12)) -
  M.m3 * (M.m4 * (M.m9 * M.m14 - M.m10 * M.m13) -
          M.m5 * (M.m8 * M.m14 - M.m10 * M.m12) +
          M.m6 * (M.m8 * M.m13 - M.m9 * M.m12))

/-- `Matrix4::Inverted()`: returns `Identity()` when
`Math::NearZero(Determinant())`, otherwise the adjugate rows scaled by
`invDet = 1/det`, entry for entry as written in `Matrix4.h`. -/
def Inverted (M : Matrix4) : Matrix4 :=
  if Math.NearZero M.Determinant then Identity
  else
    let invDet := 1 / M.Determinant
    ⟨invDet * (M.m5 * (M.m10 * M.m15 - M.m11 * M.m14) -
               M.m6 * (M.m9 * M.m15 - M.m11 * M.m13) +
               M.m7 * (M.m9 * M.m14 - M.m10 * M.m13)),
     -invDet * (M.m1 * (M.m10 * M.m15 - M.m11 * M.m14) -
                M.m2 * (M.m9 * M.m15 - M.m11 * M.m13) +
                M.m3 * (M.m9 * M.m14 - M.m10 * M.m13)),
     invDet * (M.m1 * (M.m6 * M.m15 - M.m7 * M.m14) -
               M.m2 * (M.m5 * M.m15 - M.m7 * M.m13) +
               M.m3 * (M.m5 * M.m14 - M.m6 * M.m13)),
     -invDet * (M.m1 * (M.m6 * M.m11 - M.m7 * M.m10) -
                M.m2 * (M.m5 * M.m11 - M.m7 * M.m9) +
                M.m3 * (M.m5 * M.m10 - M.m6 * M.m9)),
     -invDet * (M.m4 * (M.m10 * M.m15 - M.m11 * M.m14) -
                M.m6 * (M.m8 * M.m15 - M.m11 * M.m12) +
                M.m7 * (M.m8 * M.m14 - M.m10 * M.m12)),
     invDet * (M.m0 * (M.m10 * M.m15 - M.m11 * M.m14) -
               M.m2 * (M.m8 * M.m15 - M.m11 * M.m12) +
               M.m3 * (M.m8 * M.m14 - M.m10 * M.m12)),
     -invDet * (M.m0 * (M.m6 * M.m15 - M.m7 * M.m14) -
                M.m2 * (M.m4 * M.m15 - M.m7 * M.m12) +
                M.m3 * (M.m4 * M.m14 - M.m6 * M.m12)),
     invDet * (M.m0 * (M.m6 * M.m11 - M.m7 * M.m10) -
               M.m2 * (M.m4 * M.m11 - M.m7 * M.m8) +
               M.m3 * (M.m4 * M.m10 - M.m6 * M.m8)),
     invDet * (M.m4 * (M.m9 * M.m15 - M.m11 * M.m13) -
               M.m5 * (M.m8 * M.m15 - M.m11 * M.m12) +
               M.m7 * (M.m8 * M.m13 - M.m9 * M.m12)),
     -invDet * (M.m0 * (M.m9 * M.m15 - M.m11 * M.m13) -
                M.m1 * (M.m8 * M.m15 - M.m11 * M.m12) +
                M.m3 * (M.m8 * M.m13 - M.m9 * M.m12)),
     invDet * (M.m0 * (M.m5 * M.m15 - M.m7 * M.m13) -
               M.m1 * (M.m4 * M.m15 - M.m7 * M.m12) +
               M.m3 * (M.m4 * M.m13 - M.m5 * M.m12)),
     -invDet * (M.m0 * (M.m5 * M.m11 - M.m7 * M.m9) -
                M.m1 * (M.m4 * M.m11 - M.m7 * M.m8) +
                M.m3 * (M.m4 * M.m9 - M.m5 * M.m8)),
     -invDet * (M.m4 * (M.m9 * M.m14 - M.m10 * M.m13) -
                M.m5 * (M.m8 * M.m14 - M.m10 * M.m12) +
                M.m6 * (M.m8 * M.m13 - M.m9 * M.m12)),
     invDet * (M.m0 * (M.m9 * M.m14 - M.m10 * M.m13) -
               M.m1 * (M.m8 * M.m14 - M.m10 * M.m12) +
               M.m2 * (M.m8 * M.m13 - M.m9 * M.m12)),
     -invDet * (M.m0 * (M.m5 * M.m14 - M.m6 * M.m13) -
                M.m1 * (M.m4 * M.m14 - M.m6 * M.m12) +
                M.m2 * (M.m4 * M.m13 - M.m5 * M.m12)),
     invDet * (M.m0 * (M.m5 * M.m10 - M.m6 * M.m9) -
               M.m1 * (M.m4 * M.m10 - M.m6 * M.m8) +
               M.m2 * (M.m4 * M.m9 - M.m5 * M.m8))⟩

/-- `Matrix4::Orthographic(left, right, bottom, top, near, far)`: the listed
entries assigned over an identity matrix. -/
def Orthographic (left right bottom top near far : ℝ) : Matrix4 :=
  { Identity with
    m0 := 2 / (right - left)
    m5 := 2 / (top - bottom)
    m10 := -2 / (far - near)
    m3 := -(right + left) / (right - left)
    m7 := -(top + bottom) / (top - bottom)
    m11 := -(far + near) / (far - near) }

/-- `Matrix4::Perspective(fov, aspect, near, far)`: the listed entries
assigned over an identity matrix, with `tanHalfFov = Math::Tan(fov * 0.5f)`. -/
def Perspective (fov aspect near far : ℝ) : Matrix4 :=
  let tanHalfFov := Real.tan (fov * (1 / 2))
  { Identity with
    m0 := 1 / (aspect * tanHalfFov)
    m5 := 1 / tanHalfFov
    m10 := -(far + near) / (far - near)
    m11 := -(2 * far * near) / (far - near)
    m14 := -1
    m15 := 0 }

/-- `Matrix4::LookAt(eye, target, up)`: right-handed view basis
`z = (eye - target).Normalized()`, `x = Cross(up, z).Normalized()`,
`y = Cross(z, x)`, written over an identity matrix. -/
def LookAt (eye target up : Vector3) : Matrix4 :=
  let z := (eye.sub target).Normalized
  let x := (Vector3.Cross up z).Normalized
  let y := Vector3.Cross z x
  { Identity with
    m0 := x.x, m1 := x.y, m2 := x.z
    m4 := y.x, m5 := y.y, m6 := y.z
    m8 := z.x, m9 := z.y, m10 := z.z
    m3 := -(Vector3.Dot x eye)
    m7 := -(Vector3.Dot y eye)
    m11 := -(Vector3.Dot z eye) }

end Matrix4

/-- `Quaternion` from `Quaternion.h`: four `f32` components `(x, y, z, w)`. -/
@[ext]
structure Quaternion where
  x : ℝ
  y : ℝ
  z : ℝ
  w : ℝ

namespace Quaternion

/-- `Quaternion::Identity() = Quaternion(0, 0, 0, 1)`. -/
def Identity : Quaternion := ⟨0, 0, 0, 1⟩

/-- `Quaternion::operator+`. -/
def add (a b : Quaternion) : Quaternion :=
  ⟨a.x + b.x, a.y + b.y, a.z + b.z, a.w + b.w⟩

/-- `Quaternion::operator*(f32 scalar)`. -/
def smul (a : Quaternion) (s : ℝ) : Quaternion :=
  ⟨a.x * s, a.y * s, a.z * s, a.w * s⟩

/-- `Quaternion::operator*(const Quaternion&)`: the Hamilton product as
written in `Quaternion.h`. -/
def mul (a b : Quaternion) : Quaternion :=
  ⟨a.w * b.x + a.x * b.w + a.y * b.z - a.z * b.y,
   a.w * b.y - a.x * b.z + a.y * b.w + a.z * b.x,
   a.w * b.z + a.x * b.y - a.y * b.x + a.z * b.w,
   a.w * b.w - a.x * b.x - a.y * b.y - a.z * b.z⟩

/-- `Quaternion::Conjugate() = Quaternion(-x, -y, -z, w)`. -/
def Conjugate (q : Quaternion) : Quaternion := ⟨-q.x, -q.y, -q.z, q.w⟩

/-- `Quaternion::operator*(const Vector3&)`: rotate a vector by
`(*this) * (v, 0) * Conjugate()` and take the vector part. -/
def rotateVec (q : Quaternion) (v : Vector3) : Vector3 :=
  let p : Quaternion := ⟨v.x, v.y, v.z, 0⟩
  let r := (q.mul p).mul q.Conjugate
  ⟨r.x, r.y, r.z⟩

/-- `Quaternion::Dot(other)`. -/
def Dot (a b : Quaternion) : ℝ :=
  a.x * b.x + a.y * b.y + a.z * b.z + a.w * b.w

/-- `Quaternion::LengthSquared()`. -/
def LengthSquared (q : Quaternion) : ℝ :=
  q.x * q.x + q.y * q.y + q.z * q.z + q.w * q.w

/-- `Quaternion::Length() = Math::Sqrt(LengthSquared())`. -/
def Length (q : Quaternion) : ℝ := Real.sqrt q.LengthSquared

/-- `Quaternion::Normalized()` (a copy put through `Normalize()`, which
multiplies every component by `invLen = 1/len` when `len > Math::EPSILON`
and otherwise leaves the quaternion unchanged). -/
def Normalized (q : Quaternion) : Quaternion :=
  if q.Length > Math.EPSILON then
    ⟨q.x * (1 / q.Length), q.y * (1 / q.Length),
     q.z * (1 / q.Length), q.w * (1 / q.Length)⟩
  else q

/-- `Quaternion::ToMatrix()`: the rotation block written over an identity
matrix, exactly as in `Quaternion.h`
(`result.m[4*i+j]` is field `m(4*i+j)` here). -/
def ToMatrix (q : Quaternion) : Matrix4 :=
  let xx := q.x * q.x
  let yy := q.y * q.y
  let zz := q.z * q.z
  let xy := q.x * q.y
  let xz := q.x * q.z
  let xw := q.x * q.w
  let yz := q.y * q.z
  let yw := q.y * q.w
  let zw := q.z * q.w
  { Matrix4.Identity with
    m0 := 1 - 2 * (yy + zz), m1 := 2 * (xy - zw), m2 := 2 * (xz + yw)
    m4 := 2 * (xy + zw), m5 := 1 - 2 * (xx + zz), m6 := 2 * (yz - xw)
    m8 := 2 * (xz - yw), m9 := 2 * (yz + xw), m10 := 1 - 2 * (xx + yy) }

/-- `Quaternion::FromAxisAngle(axis, angle)`:
`halfAngle = angle * 0.5f`, `s = Sin(halfAngle)`, `n = axis.Normalized()`,
result `(n.x*s, n.y*s, n.z*s, Cos(halfAngle))`. -/
def FromAxisAngle (axis : Vector3) (angle : ℝ) : Quaternion :=
  let halfAngle := angle * (1 / 2)
  let s := Real.sin halfAngle
  let n := axis.Normalized
  ⟨n.x * s, n.y * s, n.z * s, Real.cos halfAngle⟩

/-- `Quaternion::Lerp(a, b, t)`: clamps `t` to `[0, 1]`, then
`(a * (1 - t) + b * t).Normalized()`. -/
def Lerp (a b : Quaternion) (t0 : ℝ) : Quaternion :=
  let t := Math.Clamp t0 0 1
  ((a.smul (1 - t)).add (b.smul t)).Normalized

/-- `Quaternion::Slerp(a, b, t)` exactly as in `Quaternion.h`: clamp `t`,
negate `b` when the dot product is negative, fall back to `Lerp` when
`cosHalfTheta > 0.9999f` or the sine is near zero, otherwise blend with
`sin((1-t)*halfTheta)/sinHalfTheta` and `sin(t*halfTheta)/sinHalfTheta`
and normalize.  The C++ reassigns `b2`/`cosHalfTheta` under one branch;
here the two reassignments appear as two conditionals on the same test. -/
def Slerp (a b : Quaternion) (t0 : ℝ) : Quaternion :=
  let t := Math.Clamp t0 0 1
  let cosHalfTheta0 := a.Dot b
  let b2 := if cosHalfTheta0 < 0 then b.smul (-1) else b
  let cosHalfTheta := if cosHalfTheta0 < 0 then -cosHalfTheta0 else cosHalfTheta0
  if cosHalfTheta > 9999 / 10000 then Lerp a b2 t
  else
    let halfTheta := Real.arccos cosHalfTheta
    let sinHalfTheta := Real.sqrt (1 - cosHalfTheta * cosHalfTheta)
    if Math.NearZero sinHalfTheta then Lerp a b2 t
    else
      let ratioA := Real.sin ((1 - t) * halfTheta) / sinHalfTheta
      let ratioB := Real.sin (t * halfTheta) / sinHalfTheta
      ((a.smul ratioA).add (b2.smul ratioB)).Normalized

/-- `Quaternion::FromRotationMatrix(matrix)`: the trace-based algorithm of
`Quaternion.h`, with `matrix(r, c) = m[4*r+c]` spelled out
(`matrix(0,0) = m0`, `matrix(1,1) = m5`, `matrix(2,2) = m10`,
`matrix(2,1) = m9`, `matrix(1,2) = m6`, `matrix(0,2) = m2`,
`matrix(2,0) = m8`, `matrix(1,0) = m4`, `matrix(0,1) = m1`). -/
def FromRotationMatrix (matrix : Matrix4) : Quaternion :=
  let trace := matrix.m0 + matrix.m5 + matrix.m10
  if trace > 0 then
    let s := (1 / 2) / Real.sqrt (trace + 1)
    Normalized ⟨(matrix.m9 - matrix.m6) * s,
                (matrix.m2 - matrix.m8) * s,
                (matrix.m4 - matrix.m1) * s,
                (1 / 4) / s⟩
  else if matrix.m0 > matrix.m5 ∧ matrix.m0 > matrix.m10 then
    let s := 2 * Real.sqrt (1 + matrix.m0 - matrix.m5 - matrix.m10)
    Normalized ⟨(1 / 4) * s,
                (matrix.m1 + matrix.m4) / s,
                (matrix.m2 + matrix.m8) / s,
                (matrix.m9 - matrix.m6) / s⟩
  else if matrix.m5 > matrix.m10 then
    let s := 2 * Real.sqrt (1 + matrix.m5 - matrix.m0 - matrix.m10)
    Normalized ⟨(matrix.m1 + matrix.m4) / s,
                (1 / 4) * s,
                (matrix.m6 + matrix.m9) / s,
                (matrix.m2 - matrix.m8) / s⟩
  else
    let s := 2 * Real.sqrt (1 + matrix.m10 - matrix.m0 - matrix.m5)
    Normalized ⟨(matrix.m2 + matrix.m8) / s,
                (matrix.m6 + matrix.m9) / s,
                (1 / 4) * s,
                (matrix.m4 - matrix.m1) / s⟩

/-- `Quaternion::operator==` from `Quaternion.h`: componentwise
`Math::Approximately`, i.e. every component within `Math::EPSILON`. -/
def ApproxEq (a b : Quaternion) : Prop :=
  |a.x - b.x| ≤ Math.EPSILON ∧ |a.y - b.y| ≤ Math.EPSILON ∧
  |a.z - b.z| ≤ Math.EPSILON ∧ |a.w - b.w| ≤ Math.EPSILON

end Quaternion

/-- `CameraType` from `Camera.h`. -/
inductive CameraType where
  | Perspective
  | Orthographic
deriving DecidableEq

/-- The members of `Camera` (`Camera.h`): projection mode, pose, the five
projection parameters and the two derived matrices. -/
structure CameraState where
  type : CameraType
  position : Vector3
  rotation : Quaternion
  fov : ℝ
  size : ℝ
  aspect : ℝ
  near : ℝ
  far : ℝ
  viewMatrix : Matrix4
  projectionMatrix : Matrix4

namespace CameraState

/-- The `Vector3::operator+=` update in `Camera::Move` and the
`position + forward` target in `Camera::Recalculate`. -/
def Recalculate (s : CameraState) : CameraState :=
  let forward := s.rotation.rotateVec Vector3.Forward
  let up := s.rotation.rotateVec Vector3.Up
  let view := Matrix4.LookAt s.position (s.position.add forward) up
  let proj :=
    if s.type = CameraType.Perspective then
      Matrix4.Perspective s.fov s.aspect s.near s.far
    else
      let right := s.size * s.aspect * (1 / 2)
      let top := s.size * (1 / 2)
      Matrix4.Orthographic (-right) right (-top) top s.near s.far
  { s with viewMatrix := view, projectionMatrix := proj }

/-- `Camera::SetPerspective(fov, aspect, near, far)` from `Camera.cpp`: the
four validation checks in order, each returning with an error logged
(the `Bool` component, `true` = an error was logged) and no state change;
on valid input the parameters are stored and `Recalculate()` runs. -/
def SetPerspective (s : CameraState) (fov aspect near far : ℝ) :
    CameraState × Bool :=
  if fov ≤ 0 ∨ fov ≥ Math.PI then (s, true)
  else if aspect ≤ 0 then (s, true)
  else if near ≤ 0 then (s, true)
  else if far ≤ near then (s, true)
  else
    (Recalculate { s with
        type := CameraType.Perspective
        fov := fov, aspect := aspect, near := near, far := far },
     false)

end CameraState

/-- `SceneObject` (`Scene.h`): only the unique `name` takes part in the
scene's container logic; the mesh, transform and update callback are
payload the add/remove/find algorithms never inspect. -/
structure SceneObject where
  name : String
deriving DecidableEq

/-- The two containers of `Scene` (`Scene.h`): the backing object list
`m_Objects` and the name-to-index lookup map `m_ObjectIndex` (an
unordered map, embedded as an association list with unique keys). -/
structure SceneState where
  objects : List SceneObject
  objectIndex : List (String × Nat)

namespace SceneState

/-- `Scene::AddObject(object)` from `Scene.cpp`: a duplicate name is a
rejected no-op; otherwise the index records the current list size and the
object is appended. -/
def AddObject (s : SceneState) (o : SceneObject) : SceneState :=
  if (s.objectIndex.lookup o.name).isSome then s
  else { objects := s.objects ++ [o],
         objectIndex := (o.name, s.objects.length) :: s.objectIndex }

/-- `Scene::RemoveObject(name)` from `Scene.cpp`: a missing name is a
no-op; otherwise the object is erased from the vector, the map entry is
erased, and every recorded index greater than the removed one is
decremented. -/
def RemoveObject (s : SceneState) (n : String) : SceneState :=
  match s.objectIndex.lookup n with
  | none => s
  | some index =>
      { objects := s.objects.eraseIdx index,
        objectIndex :=
          (s.objectIndex.filter (fun p => p.1 != n)).map
            (fun p => if index < p.2 then (p.1, p.2 - 1) else p) }

/-- `Scene::FindObject(name)` from `Scene.cpp`: look the name up in the
index map and return the object stored at that position (`none` embeds
the C++ `nullptr`). -/
def FindObject (s : SceneState) (n : String) : Option SceneObject :=
  match s.objectIndex.lookup n with
  | some index => s.objects[index]?
  | none => none

/-- The consistency invariant the spec states for the name-to-index map:
every recorded entry points inside the backing list at the object bearing
that name, and looking up the name of the object at any position returns
exactly that position. -/
def Inv (s : SceneState) : Prop :=
  (∀ p ∈ s.objectIndex,
      ∃ h : p.2 < s.objects.length, (s.objects.get ⟨p.2, h⟩).name = p.1) ∧
  (∀ i : Fin s.objects.length,
      s.objectIndex.lookup (s.objects.get i).name = some i.val)

/-- A scene as freshly constructed: both containers empty. -/
def empty : SceneState := ⟨[], []⟩

end SceneState

/-- A concrete camera state used to instantiate the camera theorems: a
perspective camera with the default-constructor parameters of
`Camera::Camera()` (fov 60 degrees, aspect 16:9, near 0.1, far 1000) and
identity matrices. -/
def sampleCamera : CameraState :=
  ⟨CameraType.Perspective, Vector3.Zero, Quaternion.Identity,
   Math.ToRadians 60, 5, 16 / 9, 1 / 10, 1000,
   Matrix4.Identity, Matrix4.Identity⟩

end

/-! ## Theorems -/

section Theorems

open Engine

/-- C2: for every 4x4 matrix whose determinant has absolute value at most
1e-6 (the singular case, e.g. the all-zero matrix), `Inverted()` returns
`Matrix4::Identity()` as a defined fallback. -/
theorem matrix4_inverted_singular_fallback (M : Matrix4)
    (h : |M.Determinant| ≤ 1 / 1000000) :
    M.Inverted = Matrix4.Identity := by
  unfold Matrix4.Inverted
  rw [if_pos]
  exact h

/-- Witness for C2 at the all-zero matrix. -/
theorem matrix4_inverted_singular_fallback_witness :
    |Matrix4.Determinant ⟨0, 0, 0, 0, 0, 0, 0, 0, 0, 0, 0, 0, 0, 0, 0, 0⟩|
        ≤ 1 / 1000000 ∧
    Matrix4.Inverted ⟨0, 0, 0, 0, 0, 0, 0, 0, 0, 0, 0, 0, 0, 0, 0, 0⟩
        = Matrix4.Identity := by
  refine ⟨by norm_num [Matrix4.Determinant], ?_⟩
  exact matrix4_inverted_singular_fallback _ (by norm_num [Matrix4.Determinant])

/-- C9: `Matrix4::Perspective(90 degrees in radians, 1.0, 0.1, 100.0)` has
`(0,0)` and `(1,1)` entries equal to `1/tan(45 degrees) = 1` and its
`(3,2)` entry (flat index 14) equal to `-1`. -/
theorem matrix4_perspective_ninety_entries :
    (Matrix4.Perspective (Math.ToRadians 90) 1 (1 / 10) 100).entry 0 0 = 1 ∧
    (Matrix4.Perspective (Math.ToRadians 90) 1 (1 / 10) 100).entry 1 1 = 1 ∧
    (Matrix4.Perspective (Math.ToRadians 90) 1 (1 / 10) 100).entry 3 2 = -1 := by
  have harg : Math.ToRadians 90 * (1 / 2) = Real.pi / 4 := by
    unfold Math.ToRadians Math.DEG2RAD Math.PI
    ring
  have htan : Real.tan (Math.ToRadians 90 * (1 / 2)) = 1 := by
    rw [harg]
    exact Real.tan_pi_div_four
  simp only [Matrix4.Perspective, htan, Matrix4.entry]
  norm_num

/-- C4: `Camera::SetPerspective` rejects fov outside `(0, pi)`, aspect at
most 0, near at most 0 and far at most near: the camera state (view and
projection matrices included) is returned unchanged and an error is
logged; the function is total (never throws). -/
theorem camera_setPerspective_invalid_noop (s : CameraState)
    (fov aspect near far : ℝ)
    (h : fov ≤ 0 ∨ fov ≥ Math.PI ∨ aspect ≤ 0 ∨ near ≤ 0 ∨ far ≤ near) :
    CameraState.SetPerspective s fov aspect near far = (s, true) := by
  unfold CameraState.SetPerspective
  split_ifs with h1 h2 h3 h4
  · rfl
  · rfl
  · rfl
  · rfl
  · exfalso
    push_neg at h1
    rcases h with h | h | h | h | h
    · linarith [h1.1]
    · linarith [h1.2]
    · exact h2 h
    · exact h3 h
    · exact h4 h

/-- Witness for C4: setting fov to 0 on the sample camera is a no-op that
logs an error. -/
theorem camera_setPerspective_invalid_noop_witness :
    CameraState.SetPerspective sampleCamera 0 1 (1 / 10) 100
      = (sampleCamera, true) :=
  camera_setPerspective_invalid_noop sampleCamera 0 1 (1 / 10) 100
    (Or.inl (by norm_num))

/-- `Math::Clamp(t, 0, 1)` is 1 for `t` above the range. -/
theorem math_clamp_of_one_lt (t : ℝ) (h : 1 < t) : Math.Clamp t 0 1 = 1 := by
  unfold Math.Clamp
  rw [if_neg (by linarith), if_pos h]

/-- `Math::Clamp(t, 0, 1)` is 0 for `t` below the range. -/
theorem math_clamp_of_lt_zero (t : ℝ) (h : t < 0) : Math.Clamp t 0 1 = 0 := by
  unfold Math.Clamp
  rw [if_pos h]

/-- `Math::Clamp` fixes the endpoints of `[0, 1]`. -/
theorem math_clamp_one : Math.Clamp 1 0 1 = 1 := by
  unfold Math.Clamp
  norm_num

theorem math_clamp_zero : Math.Clamp 0 0 1 = 0 := by
  unfold Math.Clamp
  norm_num

/-- C10: `Quaternion::Slerp` and `Quaternion::Lerp` clamp the parameter to
`[0, 1]` before interpolating: any `t > 1` gives the `t = 1` result and
any `t < 0` gives the `t = 0` result, so quaternion interpolation never
extrapolates. -/
theorem quaternion_interp_clamps (a b : Quaternion) (t : ℝ) :
    (1 < t →
      Quaternion.Slerp a b t = Quaternion.Slerp a b 1 ∧
      Quaternion.Lerp a b t = Quaternion.Lerp a b 1) ∧
    (t < 0 →
      Quaternion.Slerp a b t = Quaternion.Slerp a b 0 ∧
      Quaternion.Lerp a b t = Quaternion.Lerp a b 0) := by
  constructor
  · intro h
    constructor
    · simp only [Quaternion.Slerp, math_clamp_of_one_lt t h, math_clamp_one]
    · simp only [Quaternion.Lerp, math_clamp_of_one_lt t h, math_clamp_one]
  · intro h
    constructor
    · simp only [Quaternion.Slerp, math_clamp_of_lt_zero t h, math_clamp_zero]
    · simp only [Quaternion.Lerp, math_clamp_of_lt_zero t h, math_clamp_zero]

/-- The length of a `Vector3` is nonnegative (it is a square root). -/
theorem vector3_length_nonneg (v : Vector3) : 0 ≤ v.Length :=
  Real.sqrt_nonneg _

/-- Each component of a `Vector3` is bounded in absolute value by the
vector's length. -/
theorem vector3_abs_component_le_length (v : Vector3) :
    |v.x| ≤ v.Length ∧ |v.y| ≤ v.Length ∧ |v.z| ≤ v.Length := by
  unfold Vector3.Length Vector3.LengthSquared
  refine ⟨?_, ?_, ?_⟩ <;>
    · rw [show ∀ a : ℝ, |a| = Real.sqrt (a ^ 2) from
        fun a => (Real.sqrt_sq_eq_abs a).symm]
      apply Real.sqrt_le_sqrt
      nlinarith [sq_nonneg v.x, sq_nonneg v.y, sq_nonneg v.z]

/-- C6 (amended): on any vector of length at most `Math::EPSILON` the
normalization path returns the vector unchanged (no division happens, so
no NaN can arise); every component of the result is within 1e-6 of zero,
and the zero vector in particular normalizes to exactly the zero
vector. -/
theorem vector3_normalized_near_zero (v : Vector3)
    (h : v.Length ≤ Math.EPSILON) :
    v.Normalized = v ∧
    |v.x| ≤ Math.EPSILON ∧ |v.y| ≤ Math.EPSILON ∧ |v.z| ≤ Math.EPSILON ∧
    Vector3.Normalized Vector3.Zero = Vector3.Zero := by
  have hzero : Vector3.Normalized Vector3.Zero = Vector3.Zero := by
    unfold Vector3.Normalized
    rw [if_pos]
    unfold Math.NearZero Math.EPSILON Vector3.Length Vector3.LengthSquared
      Vector3.Zero
    norm_num
  have hcomp := vector3_abs_component_le_length v
  refine ⟨?_, le_trans hcomp.1 h, le_trans hcomp.2.1 h,
          le_trans hcomp.2.2 h, hzero⟩
  unfold Vector3.Normalized
  rw [if_pos]
  unfold Math.NearZero
  rw [abs_of_nonneg (vector3_length_nonneg v)]
  exact h

/-- Witness for C6's amended theorem at the zero vector. -/
theorem vector3_normalized_near_zero_witness :
    Vector3.Length Vector3.Zero ≤ Math.EPSILON ∧
    Vector3.Normalized Vector3.Zero = Vector3.Zero := by
  have hlen : Vector3.Length Vector3.Zero ≤ Math.EPSILON := by
    unfold Vector3.Length Vector3.LengthSquared Vector3.Zero Math.EPSILON
    norm_num
  exact ⟨hlen, (vector3_normalized_near_zero Vector3.Zero hlen).1⟩

/-- C6 counterexample: the vector `(1e-7, 0, 0)` has length 1e-7, at most
the epsilon 1e-6, yet `Normalized()` returns it unchanged, which is not
the zero vector — the claim that every such vector normalizes to the zero
vector fails on the code (the code leaves near-zero vectors untouched). -/
theorem vector3_normalized_claim_counterexample :
    Vector3.Length ⟨1 / 10000000, 0, 0⟩ ≤ 1 / 1000000 ∧
    Vector3.Normalized ⟨1 / 10000000, 0, 0⟩ ≠ Vector3.Zero := by
  have hlen : Vector3.Length ⟨1 / 10000000, 0, 0⟩ = 1 / 10000000 := by
    unfold Vector3.Length Vector3.LengthSquared
    rw [show (1 / 10000000 : ℝ) * (1 / 10000000) + 0 * 0 + 0 * 0
          = (1 / 10000000 : ℝ) ^ 2 by ring]
    exact Real.sqrt_sq (by norm_num)
  constructor
  · rw [hlen]
    norm_num
  · have hsame : Vector3.Normalized ⟨1 / 10000000, 0, 0⟩
        = (⟨1 / 10000000, 0, 0⟩ : Vector3) := by
      unfold Vector3.Normalized
      rw [if_pos]
      unfold Math.NearZero Math.EPSILON
      rw [hlen]
      rw [abs_of_nonneg (by norm_num)]
      norm_num
    rw [hsame]
    intro hcontra
    have hx := congrArg Vector3.x hcontra
    unfold Vector3.Zero at hx
    norm_num at hx

/-- C7: the `LookAt` view matrix always maps the eye point to the origin
of view space — exactly, in real arithmetic, for every eye, target and up
vector (in particular for eye (0,0,5), target (0,0,0), up (0,1,0), and
well within the claimed tolerance). -/
theorem matrix4_lookAt_maps_eye_to_origin (eye target up : Vector3) :
    (Matrix4.LookAt eye target up).TransformPoint eye = Vector3.Zero := by
  simp only [Matrix4.LookAt, Matrix4.TransformPoint, Matrix4.mulVec4,
    Vector4.ofVector3, Vector4.Homogenized, Vector3.Dot, Matrix4.Identity,
    Vector3.Zero]
  rw [if_neg]
  · ext <;> ring
  · unfold Math.NearZero Math.EPSILON
    norm_num

set_option maxHeartbeats 1600000 in
/-- The adjugate identity for the code's `Inverted()`: away from the
near-zero-determinant guard, the product of a matrix with its computed
inverse is exactly the identity in real arithmetic. -/
theorem matrix4_mul_inverted_exact (M : Matrix4) (hd : M.Determinant ≠ 0)
    (hnz : ¬ Math.NearZero M.Determinant) :
    M.mul M.Inverted = Matrix4.Identity := by
  simp only [Matrix4.Inverted]
  rw [if_neg hnz]
  unfold Matrix4.mul Matrix4.Identity
  ext <;> field_simp <;> (try simp only [Matrix4.Determinant]) <;> ring

/-- C1: for every 4x4 matrix whose determinant exceeds 1e-6 in absolute
value, every entry of `M * M.Inverted()` is within 1e-4 of the
corresponding identity entry (in exact real arithmetic the product is the
identity itself). -/
theorem matrix4_mul_inverted_approx_identity (M : Matrix4)
    (h : 1 / 1000000 < |M.Determinant|) :
    ∀ r c : Fin 4,
      |(M.mul M.Inverted).entry r c - Matrix4.Identity.entry r c|
        ≤ 1 / 10000 := by
  have hnz : ¬ Math.NearZero M.Determinant := by
    unfold Math.NearZero Math.EPSILON
    linarith
  have hd : M.Determinant ≠ 0 := by
    intro h0
    rw [h0] at h
    norm_num at h
  intro r c
  rw [matrix4_mul_inverted_exact M hd hnz]
  norm_num

/-- Witness for C1 at the diagonal matrix with entries (2, 1, 1, 1), whose
determinant is 2. -/
theorem matrix4_mul_inverted_approx_identity_witness :
    1 / 1000000
        < |Matrix4.Determinant ⟨2, 0, 0, 0, 0, 1, 0, 0, 0, 0, 1, 0, 0, 0, 0, 1⟩| ∧
    ∀ r c : Fin 4,
      |(Matrix4.mul ⟨2, 0, 0, 0, 0, 1, 0, 0, 0, 0, 1, 0, 0, 0, 0, 1⟩
          (Matrix4.Inverted ⟨2, 0, 0, 0, 0, 1, 0, 0, 0, 0, 1, 0, 0, 0, 0, 1⟩)).entry r c
        - Matrix4.Identity.entry r c| ≤ 1 / 10000 := by
  refine ⟨by norm_num [Matrix4.Determinant], ?_⟩
  exact matrix4_mul_inverted_approx_identity _ (by norm_num [Matrix4.Determinant])

/-- `Dot` of a quaternion with itself is its squared length. -/
theorem quaternion_dot_self (a : Quaternion) : a.Dot a = a.LengthSquared := rfl

/-- Negating a quaternion (scalar multiplication by -1) preserves the
squared length. -/
theorem quaternion_smul_neg_one_lengthSquared (b : Quaternion) :
    (b.smul (-1)).LengthSquared = b.LengthSquared := by
  unfold Quaternion.smul Quaternion.LengthSquared
  ring

/-- `Normalize()` leaves a unit quaternion unchanged: the length is 1,
above `Math::EPSILON`, and scaling by `1/1` changes nothing. -/
theorem quaternion_normalized_of_unit (q : Quaternion)
    (h : q.LengthSquared = 1) : q.Normalized = q := by
  unfold Quaternion.Normalized Quaternion.Length
  rw [h, Real.sqrt_one]
  rw [if_pos (show (1 : ℝ) > Math.EPSILON by norm_num [Math.EPSILON])]
  ext <;> norm_num

/-- `Quaternion::Lerp` at `t = 0` returns `a` exactly when `a` is a unit
quaternion. -/
theorem quaternion_lerp_zero (a b : Quaternion) (ha : a.LengthSquared = 1) :
    Quaternion.Lerp a b 0 = a := by
  simp only [Quaternion.Lerp, math_clamp_zero]
  have hcomb : (a.smul (1 - 0)).add (b.smul 0) = a := by
    ext <;> simp [Quaternion.smul, Quaternion.add]
  rw [hcomb]
  exact quaternion_normalized_of_unit a ha

/-- `Quaternion::Lerp` at `t = 1` returns `b` exactly when `b` is a unit
quaternion. -/
theorem quaternion_lerp_one (a b : Quaternion) (hb : b.LengthSquared = 1) :
    Quaternion.Lerp a b 1 = b := by
  simp only [Quaternion.Lerp, math_clamp_one]
  have hcomb : (a.smul (1 - 1)).add (b.smul 1) = b := by
    ext <;> simp [Quaternion.smul, Quaternion.add]
  rw [hcomb]
  exact quaternion_normalized_of_unit b hb

/-- `Quaternion::Lerp` of a quaternion with itself is that quaternion, for
any parameter, when the quaternion is unit. -/
theorem quaternion_lerp_self (a : Quaternion) (t : ℝ)
    (ha : a.LengthSquared = 1) : Quaternion.Lerp a a t = a := by
  simp only [Quaternion.Lerp]
  have hcomb : (a.smul (1 - Math.Clamp t 0 1)).add (a.smul (Math.Clamp t 0 1))
      = a := by
    ext <;> (simp only [Quaternion.smul, Quaternion.add]) <;> ring
  rw [hcomb]
  exact quaternion_normalized_of_unit a ha

/-- The sine denominator of the slerp blend is not near zero whenever the
(nonnegative) cosine is at most `0.9999`. -/
theorem sqrt_one_sub_sq_not_nearZero (c : ℝ) (h0 : 0 ≤ c)
    (h1 : c ≤ 9999 / 10000) :
    ¬ Math.NearZero (Real.sqrt (1 - c * c)) := by
  unfold Math.NearZero Math.EPSILON
  rw [abs_of_nonneg (Real.sqrt_nonneg _)]
  push_neg
  rw [show (1 : ℝ) / 1000000 < Real.sqrt (1 - c * c)
        ↔ ((1 : ℝ) / 1000000) ^ 2 < 1 - c * c from
      Real.lt_sqrt (by norm_num)]
  nlinarith

/-- The normalized blend with ratios 1 and 0 is the first (unit)
quaternion. -/
theorem quaternion_blend_one_zero (a b2 : Quaternion) (r s : ℝ)
    (ha : a.LengthSquared = 1) (hr : r = 1) (hs : s = 0) :
    ((a.smul r).add (b2.smul s)).Normalized = a := by
  subst hr
  subst hs
  have hcomb : (a.smul 1).add (b2.smul 0) = a := by
    ext <;> simp [Quaternion.smul, Quaternion.add]
  rw [hcomb]
  exact quaternion_normalized_of_unit a ha

/-- The normalized blend with ratios 0 and 1 is the second (unit)
quaternion. -/
theorem quaternion_blend_zero_one (a b2 : Quaternion) (r s : ℝ)
    (hb2 : b2.LengthSquared = 1) (hr : r = 0) (hs : s = 1) :
    ((a.smul r).add (b2.smul s)).Normalized = b2 := by
  subst hr
  subst hs
  have hcomb : (a.smul 0).add (b2.smul 1) = b2 := by
    ext <;> simp [Quaternion.smul, Quaternion.add]
  rw [hcomb]
  exact quaternion_normalized_of_unit b2 hb2

/-- The slerp blend ratio `sin((1-0)*arccos c)/sqrt(1-c*c)` is exactly 1
for `0 <= c <= 0.9999`. -/
theorem slerp_ratio_first_at_zero (c : ℝ) (h0 : 0 ≤ c)
    (h1 : c ≤ 9999 / 10000) :
    Real.sin ((1 - 0) * Real.arccos c) / Real.sqrt (1 - c * c) = 1 := by
  have hpos : 0 < Real.sqrt (1 - c * c) := by
    rw [Real.sqrt_pos]
    nlinarith
  rw [show (1 - (0 : ℝ)) * Real.arccos c = Real.arccos c by ring]
  rw [Real.sin_arccos]
  rw [show 1 - c ^ 2 = 1 - c * c by ring]
  exact div_self (ne_of_gt hpos)

/-- The slerp blend ratio `sin((1-1)*arccos c)/sqrt(1-c*c)` is exactly
0. -/
theorem slerp_ratio_first_at_one (c : ℝ) :
    Real.sin ((1 - 1) * Real.arccos c) / Real.sqrt (1 - c * c) = 0 := by
  rw [show (1 - (1 : ℝ)) * Real.arccos c = 0 by ring]
  rw [Real.sin_zero, zero_div]

/-- The slerp blend ratio `sin(0*arccos c)/sqrt(1-c*c)` is exactly 0. -/
theorem slerp_ratio_second_at_zero (c : ℝ) :
    Real.sin (0 * Real.arccos c) / Real.sqrt (1 - c * c) = 0 := by
  rw [zero_mul, Real.sin_zero, zero_div]

/-- The slerp blend ratio `sin(1*arccos c)/sqrt(1-c*c)` is exactly 1 for
`0 <= c <= 0.9999`. -/
theorem slerp_ratio_second_at_one (c : ℝ) (h0 : 0 ≤ c)
    (h1 : c ≤ 9999 / 10000) :
    Real.sin (1 * Real.arccos c) / Real.sqrt (1 - c * c) = 1 := by
  have hpos : 0 < Real.sqrt (1 - c * c) := by
    rw [Real.sqrt_pos]
    nlinarith
  rw [one_mul, Real.sin_arccos]
  rw [show 1 - c ^ 2 = 1 - c * c by ring]
  exact div_self (ne_of_gt hpos)

/-- `Quaternion::Slerp` of a unit quaternion with itself is that
quaternion, for every parameter: the dot product is 1, above the 0.9999
threshold, and the `Lerp` fallback fixes `a`. -/
theorem quaternion_slerp_self (a : Quaternion) (t : ℝ)
    (ha : a.LengthSquared = 1) : Quaternion.Slerp a a t = a := by
  have hda : a.Dot a = 1 := by rw [quaternion_dot_self, ha]
  simp only [Quaternion.Slerp, hda]
  norm_num
  exact quaternion_lerp_self a (Math.Clamp t 0 1) ha

/-- `Quaternion::Slerp` at `t = 0` returns `a` exactly, for unit `a`, in
every branch of the algorithm. -/
theorem quaternion_slerp_zero (a b : Quaternion) (ha : a.LengthSquared = 1) :
    Quaternion.Slerp a b 0 = a := by
  simp only [Quaternion.Slerp, math_clamp_zero]
  by_cases hneg : a.Dot b < 0
  · simp only [if_pos hneg]
    by_cases hbig : -a.Dot b > 9999 / 10000
    · rw [if_pos hbig]
      exact quaternion_lerp_zero a _ ha
    · rw [if_neg hbig]
      push_neg at hbig
      rw [if_neg (sqrt_one_sub_sq_not_nearZero _ (by linarith) hbig)]
      exact quaternion_blend_one_zero _ _ _ _ ha
        (slerp_ratio_first_at_zero _ (by linarith) hbig)
        (slerp_ratio_second_at_zero _)
  · simp only [if_neg hneg]
    push_neg at hneg
    by_cases hbig : a.Dot b > 9999 / 10000
    · rw [if_pos hbig]
      exact quaternion_lerp_zero a _ ha
    · rw [if_neg hbig]
      push_neg at hbig
      rw [if_neg (sqrt_one_sub_sq_not_nearZero _ hneg hbig)]
      exact quaternion_blend_one_zero _ _ _ _ ha
        (slerp_ratio_first_at_zero _ hneg hbig)
        (slerp_ratio_second_at_zero _)

/-- `Quaternion::Slerp` at `t = 1` returns `b` when the dot product is
nonnegative and `-b` when it is negative (the shorter-arc flip), exactly,
for unit `b`, in every branch of the algorithm. -/
theorem quaternion_slerp_one (a b : Quaternion) (hb : b.LengthSquared = 1) :
    Quaternion.Slerp a b 1
      = (if a.Dot b < 0 then b.smul (-1) else b) := by
  simp only [Quaternion.Slerp, math_clamp_one]
  by_cases hneg : a.Dot b < 0
  · simp only [if_pos hneg]
    have hb2 : (b.smul (-1)).LengthSquared = 1 := by
      rw [quaternion_smul_neg_one_lengthSquared, hb]
    by_cases hbig : -a.Dot b > 9999 / 10000
    · rw [if_pos hbig]
      exact quaternion_lerp_one a _ hb2
    · rw [if_neg hbig]
      push_neg at hbig
      rw [if_neg (sqrt_one_sub_sq_not_nearZero _ (by linarith) hbig)]
      exact quaternion_blend_zero_one _ _ _ _ hb2
        (slerp_ratio_first_at_one _)
        (slerp_ratio_second_at_one _ (by linarith) hbig)
  · simp only [if_neg hneg]
    push_neg at hneg
    by_cases hbig : a.Dot b > 9999 / 10000
    · rw [if_pos hbig]
      exact quaternion_lerp_one a _ hb
    · rw [if_neg hbig]
      push_neg at hbig
      rw [if_neg (sqrt_one_sub_sq_not_nearZero _ hneg hbig)]
      exact quaternion_blend_zero_one _ _ _ _ hb
        (slerp_ratio_first_at_one _)
        (slerp_ratio_second_at_one _ hneg hbig)

/-- C8 (amended): for unit quaternions, `Slerp(a, a, t) = a` for every t
and `Slerp(a, b, 0) = a` exactly; `Slerp(a, b, 1) = b` exactly when
`Dot(a, b) >= 0`, but equals `-b` when `Dot(a, b) < 0` because of the
shorter-arc negation. -/
theorem quaternion_slerp_endpoint_claims (a b : Quaternion) (t : ℝ)
    (ha : a.LengthSquared = 1) (hb : b.LengthSquared = 1) :
    Quaternion.Slerp a a t = a ∧
    Quaternion.Slerp a b 0 = a ∧
    (0 ≤ a.Dot b → Quaternion.Slerp a b 1 = b) ∧
    (a.Dot b < 0 → Quaternion.Slerp a b 1 = b.smul (-1)) := by
  refine ⟨quaternion_slerp_self a t ha, quaternion_slerp_zero a b ha, ?_, ?_⟩
  · intro h
    rw [quaternion_slerp_one a b hb, if_neg (not_lt.mpr h)]
  · intro h
    rw [quaternion_slerp_one a b hb, if_pos h]

/-- Witness for C8's amended theorem at the identity quaternion and the
unit quaternion `(1, 0, 0, 0)`. -/
theorem quaternion_slerp_endpoint_claims_witness :
    Quaternion.LengthSquared ⟨0, 0, 0, 1⟩ = 1 ∧
    Quaternion.LengthSquared ⟨1, 0, 0, 0⟩ = 1 ∧
    (Quaternion.Slerp ⟨0, 0, 0, 1⟩ ⟨0, 0, 0, 1⟩ (1 / 2) = ⟨0, 0, 0, 1⟩ ∧
     Quaternion.Slerp ⟨0, 0, 0, 1⟩ ⟨1, 0, 0, 0⟩ 0 = ⟨0, 0, 0, 1⟩ ∧
     (0 ≤ Quaternion.Dot ⟨0, 0, 0, 1⟩ ⟨1, 0, 0, 0⟩ →
       Quaternion.Slerp ⟨0, 0, 0, 1⟩ ⟨1, 0, 0, 0⟩ 1 = ⟨1, 0, 0, 0⟩) ∧
     (Quaternion.Dot ⟨0, 0, 0, 1⟩ ⟨1, 0, 0, 0⟩ < 0 →
       Quaternion.Slerp ⟨0, 0, 0, 1⟩ ⟨1, 0, 0, 0⟩ 1
         = Quaternion.smul ⟨1, 0, 0, 0⟩ (-1))) := by
  refine ⟨by norm_num [Quaternion.LengthSquared],
          by norm_num [Quaternion.LengthSquared], ?_⟩
  exact quaternion_slerp_endpoint_claims ⟨0, 0, 0, 1⟩ ⟨1, 0, 0, 0⟩ (1 / 2)
    (by norm_num [Quaternion.LengthSquared])
    (by norm_num [Quaternion.LengthSquared])

/-- C8 counterexample: for the unit quaternions `a = (0,0,0,1)` and
`b = (0,0,0,-1)` the code returns `Slerp(a, b, 1) = (0,0,0,1) = -b`,
which is not approximately `b` (the w components differ by 2), so the
claim that `Slerp(a, b, 1)` approximates `b` for all unit quaternions is
false on the code. -/
theorem quaternion_slerp_one_counterexample :
    Quaternion.LengthSquared ⟨0, 0, 0, 1⟩ = 1 ∧
    Quaternion.LengthSquared ⟨0, 0, 0, -1⟩ = 1 ∧
    Quaternion.Slerp ⟨0, 0, 0, 1⟩ ⟨0, 0, 0, -1⟩ 1 = ⟨0, 0, 0, 1⟩ ∧
    ¬ Quaternion.ApproxEq (Quaternion.Slerp ⟨0, 0, 0, 1⟩ ⟨0, 0, 0, -1⟩ 1)
        ⟨0, 0, 0, -1⟩ := by
  have h2 : Quaternion.LengthSquared ⟨0, 0, 0, -1⟩ = 1 := by
    norm_num [Quaternion.LengthSquared]
  have hdotneg : Quaternion.Dot ⟨0, 0, 0, 1⟩ ⟨0, 0, 0, -1⟩ < 0 := by
    norm_num [Quaternion.Dot]
  have heval : Quaternion.Slerp ⟨0, 0, 0, 1⟩ ⟨0, 0, 0, -1⟩ 1
      = ⟨0, 0, 0, 1⟩ := by
    rw [quaternion_slerp_one _ _ h2, if_pos hdotneg]
    show Quaternion.smul ⟨0, 0, 0, -1⟩ (-1) = ⟨0, 0, 0, 1⟩
    unfold Quaternion.smul
    norm_num
  refine ⟨by norm_num [Quaternion.LengthSquared], h2, heval, ?_⟩
  rw [heval]
  unfold Quaternion.ApproxEq
  intro hcontra
  have hw := hcontra.2.2.2
  norm_num [Math.EPSILON] at hw

/-- `Normalize()` leaves a vector of length exactly 1 unchanged: the
length is not near zero and the division is by 1. -/
theorem vector3_normalized_of_length_one (v : Vector3) (h : v.Length = 1) :
    v.Normalized = v := by
  unfold Vector3.Normalized
  rw [h]
  rw [if_neg (show ¬ Math.NearZero 1 by norm_num [Math.NearZero, Math.EPSILON])]
  ext <;> norm_num

/-- Normalizing any quaternion equal to a given unit quaternion yields
that quaternion. -/
theorem quaternion_normalized_eq_of_eq (p r : Quaternion) (hpr : p = r)
    (hr : r.LengthSquared = 1) : p.Normalized = r := by
  rw [hpr]
  exact quaternion_normalized_of_unit r hr

/-- The heart of C3: `FromRotationMatrix(ToMatrix(q))` recovers any unit
quaternion `q` exactly up to sign, in each of the four branches of the
trace-based algorithm (the sign is decided by the sign of the component
the running branch divides by). -/
theorem quaternion_roundtrip_of_unit (q : Quaternion)
    (h : q.LengthSquared = 1) :
    Quaternion.FromRotationMatrix q.ToMatrix = q ∨
    Quaternion.FromRotationMatrix q.ToMatrix = q.smul (-1) := by
  obtain ⟨x, y, z, w⟩ := q
  have h : x * x + y * y + z * z + w * w = 1 := h
  have hsneg : Quaternion.LengthSquared
      (Quaternion.smul ⟨x, y, z, w⟩ (-1)) = 1 := by
    rw [quaternion_smul_neg_one_lengthSquared]
    exact h
  simp only [Quaternion.FromRotationMatrix, Quaternion.ToMatrix,
    Matrix4.Identity]
  split_ifs with h1 h2 h3
  · -- trace > 0: the w-driven branch
    have hww : 1 / 4 < w * w := by linarith
    have hw0 : w ≠ 0 := by
      intro h0
      rw [h0] at hww
      norm_num at hww
    rcases hw0.lt_or_lt with hw | hw
    · have hs : Real.sqrt (1 - 2 * (y * y + z * z) + (1 - 2 * (x * x + z * z))
          + (1 - 2 * (x * x + y * y)) + 1) = -(2 * w) := by
        rw [show (1 - 2 * (y * y + z * z) + (1 - 2 * (x * x + z * z))
            + (1 - 2 * (x * x + y * y)) + 1 : ℝ) = (-(2 * w)) ^ 2 by
          linear_combination (-4) * h]
        exact Real.sqrt_sq (by linarith)
      rw [hs]
      right
      refine quaternion_normalized_eq_of_eq _ _ ?_ hsneg
      ext <;> dsimp only [Quaternion.smul] <;> field_simp <;> ring
    · have hs : Real.sqrt (1 - 2 * (y * y + z * z) + (1 - 2 * (x * x + z * z))
          + (1 - 2 * (x * x + y * y)) + 1) = 2 * w := by
        rw [show (1 - 2 * (y * y + z * z) + (1 - 2 * (x * x + z * z))
            + (1 - 2 * (x * x + y * y)) + 1 : ℝ) = (2 * w) ^ 2 by
          linear_combination (-4) * h]
        exact Real.sqrt_sq (by linarith)
      rw [hs]
      left
      refine quaternion_normalized_eq_of_eq _ _ ?_ h
      ext <;> dsimp only <;> field_simp <;> ring
  · -- matrix(0,0) is the strictly largest diagonal entry: the x branch
    push_neg at h1
    have hyx : y * y < x * x := by linarith [h2.1]
    have hzx : z * z < x * x := by linarith [h2.2]
    have hxx : 1 / 4 < x * x := by linarith
    have hx0 : x ≠ 0 := by
      intro h0
      rw [h0] at hxx
      norm_num at hxx
    rcases hx0.lt_or_lt with hx | hx
    · have hs : Real.sqrt (1 + (1 - 2 * (y * y + z * z))
          - (1 - 2 * (x * x + z * z)) - (1 - 2 * (x * x + y * y)))
          = -(2 * x) := by
        rw [show (1 + (1 - 2 * (y * y + z * z)) - (1 - 2 * (x * x + z * z))
            - (1 - 2 * (x * x + y * y)) : ℝ) = (-(2 * x)) ^ 2 by ring]
        exact Real.sqrt_sq (by linarith)
      rw [hs]
      right
      refine quaternion_normalized_eq_of_eq _ _ ?_ hsneg
      ext <;> dsimp only [Quaternion.smul] <;> field_simp <;> ring
    · have hs : Real.sqrt (1 + (1 - 2 * (y * y + z * z))
          - (1 - 2 * (x * x + z * z)) - (1 - 2 * (x * x + y * y)))
          = 2 * x := by
        rw [show (1 + (1 - 2 * (y * y + z * z)) - (1 - 2 * (x * x + z * z))
            - (1 - 2 * (x * x + y * y)) : ℝ) = (2 * x) ^ 2 by ring]
        exact Real.sqrt_sq (by linarith)
      rw [hs]
      left
      refine quaternion_normalized_eq_of_eq _ _ ?_ h
      ext <;> dsimp only <;> field_simp <;> ring
  · -- matrix(1,1) beats matrix(2,2): the y branch
    push_neg at h1
    have hzy : z * z < y * y := by linarith
    have hyy : 1 / 4 < y * y := by
      rcases not_and_or.mp h2 with hA | hB
      · have hxy : x * x ≤ y * y := by
          push_neg at hA
          linarith
        linarith
      · have hxz : x * x ≤ z * z := by
          push_neg at hB
          linarith
        linarith
    have hy0 : y ≠ 0 := by
      intro h0
      rw [h0] at hyy
      norm_num at hyy
    rcases hy0.lt_or_lt with hy | hy
    · have hs : Real.sqrt (1 + (1 - 2 * (x * x + z * z))
          - (1 - 2 * (y * y + z * z)) - (1 - 2 * (x * x + y * y)))
          = -(2 * y) := by
        rw [show (1 + (1 - 2 * (x * x + z * z)) - (1 - 2 * (y * y + z * z))
            - (1 - 2 * (x * x + y * y)) : ℝ) = (-(2 * y)) ^ 2 by ring]
        exact Real.sqrt_sq (by linarith)
      rw [hs]
      right
      refine quaternion_normalized_eq_of_eq _ _ ?_ hsneg
      ext <;> dsimp only [Quaternion.smul] <;> field_simp <;> ring
    · have hs : Real.sqrt (1 + (1 - 2 * (x * x + z * z))
          - (1 - 2 * (y * y + z * z)) - (1 - 2 * (x * x + y * y)))
          = 2 * y := by
        rw [show (1 + (1 - 2 * (x * x + z * z)) - (1 - 2 * (y * y + z * z))
            - (1 - 2 * (x * x + y * y)) : ℝ) = (2 * y) ^ 2 by ring]
        exact Real.sqrt_sq (by linarith)
      rw [hs]
      left
      refine quaternion_normalized_eq_of_eq _ _ ?_ h
      ext <;> dsimp only <;> field_simp <;> ring
  · -- remaining case: the z branch
    push_neg at h1
    push_neg at h3
    have hyz : y * y ≤ z * z := by linarith
    have hzz : 1 / 4 ≤ z * z := by
      rcases not_and_or.mp h2 with hA | hB
      · have hxy : x * x ≤ y * y := by
          push_neg at hA
          linarith
        linarith
      · have hxz : x * x ≤ z * z := by
          push_neg at hB
          linarith
        linarith
    have hz0 : z ≠ 0 := by
      intro h0
      rw [h0] at hzz
      norm_num at hzz
    rcases hz0.lt_or_lt with hz | hz
    · have hs : Real.sqrt (1 + (1 - 2 * (x * x + y * y))
          - (1 - 2 * (y * y + z * z)) - (1 - 2 * (x * x + z * z)))
          = -(2 * z) := by
        rw [show (1 + (1 - 2 * (x * x + y * y)) - (1 - 2 * (y * y + z * z))
            - (1 - 2 * (x * x + z * z)) : ℝ) = (-(2 * z)) ^ 2 by ring]
        exact Real.sqrt_sq (by linarith)
      rw [hs]
      right
      refine quaternion_normalized_eq_of_eq _ _ ?_ hsneg
      ext <;> dsimp only [Quaternion.smul] <;> field_simp <;> ring
    · have hs : Real.sqrt (1 + (1 - 2 * (x * x + y * y))
          - (1 - 2 * (y * y + z * z)) - (1 - 2 * (x * x + z * z)))
          = 2 * z := by
        rw [show (1 + (1 - 2 * (x * x + y * y)) - (1 - 2 * (y * y + z * z))
            - (1 - 2 * (x * x + z * z)) : ℝ) = (2 * z) ^ 2 by ring]
        exact Real.sqrt_sq (by linarith)
      rw [hs]
      left
      refine quaternion_normalized_eq_of_eq _ _ ?_ h
      ext <;> dsimp only <;> field_simp <;> ring

/-- `ApproxEq` is reflexive. -/
theorem quaternion_approxEq_refl (a : Quaternion) : a.ApproxEq a := by
  unfold Quaternion.ApproxEq
  norm_num [Math.EPSILON]

/-- `FromAxisAngle` on a unit axis produces a unit quaternion. -/
theorem quaternion_fromAxisAngle_unit (axis : Vector3) (angle : ℝ)
    (h : axis.Length = 1) :
    (Quaternion.FromAxisAngle axis angle).LengthSquared = 1 := by
  have hn : axis.Normalized = axis := vector3_normalized_of_length_one axis h
  have hsq : axis.LengthSquared = 1 := by
    have h2 := h
    unfold Vector3.Length at h2
    exact Real.sqrt_eq_one.mp h2
  obtain ⟨ax, ay, az⟩ := axis
  have hsq2 : ax * ax + ay * ay + az * az = 1 := hsq
  simp only [Quaternion.FromAxisAngle, hn]
  unfold Quaternion.LengthSquared
  dsimp only
  linear_combination (Real.sin (angle * (1 / 2))) ^ 2 * hsq2 +
    Real.sin_sq_add_cos_sq (angle * (1 / 2))

/-- C3: for every unit axis and every angle, converting
`FromAxisAngle(axis, angle)` to a rotation matrix and back through
`FromRotationMatrix` recovers the quaternion up to sign, whichever branch
of the trace-based algorithm runs (the recovery is exact in real
arithmetic, hence within the code's componentwise tolerance). -/
theorem quaternion_axis_angle_matrix_roundtrip (axis : Vector3) (angle : ℝ)
    (h : axis.Length = 1) :
    Quaternion.ApproxEq
      (Quaternion.FromRotationMatrix
        (Quaternion.FromAxisAngle axis angle).ToMatrix)
      (Quaternion.FromAxisAngle axis angle) ∨
    Quaternion.ApproxEq
      (Quaternion.FromRotationMatrix
        (Quaternion.FromAxisAngle axis angle).ToMatrix)
      ((Quaternion.FromAxisAngle axis angle).smul (-1)) := by
  rcases quaternion_roundtrip_of_unit (Quaternion.FromAxisAngle axis angle)
      (quaternion_fromAxisAngle_unit axis angle h) with heq | heq
  · left
    rw [heq]
    exact quaternion_approxEq_refl _
  · right
    rw [heq]
    exact quaternion_approxEq_refl _

/-- Witness for C3 at the unit axis `(0, 0, 1)` and angle 0. -/
theorem quaternion_axis_angle_matrix_roundtrip_witness :
    Vector3.Length ⟨0, 0, 1⟩ = 1 ∧
    (Quaternion.ApproxEq
      (Quaternion.FromRotationMatrix
        (Quaternion.FromAxisAngle ⟨0, 0, 1⟩ 0).ToMatrix)
      (Quaternion.FromAxisAngle ⟨0, 0, 1⟩ 0) ∨
     Quaternion.ApproxEq
      (Quaternion.FromRotationMatrix
        (Quaternion.FromAxisAngle ⟨0, 0, 1⟩ 0).ToMatrix)
      ((Quaternion.FromAxisAngle ⟨0, 0, 1⟩ 0).smul (-1))) := by
  have hlen : Vector3.Length ⟨0, 0, 1⟩ = 1 := by
    unfold Vector3.Length Vector3.LengthSquared
    norm_num
  exact ⟨hlen, quaternion_axis_angle_matrix_roundtrip ⟨0, 0, 1⟩ 0 hlen⟩

theorem scene_lookup_mem {l : List (String × Nat)} {a : String} {b : Nat}
    (h : l.lookup a = some b) : (a, b) ∈ l := by
  induction l with
  | nil => simp at h
  | cons p rest ih =>
    obtain ⟨k, v⟩ := p
    rw [List.lookup_cons] at h
    cases hbeq : a == k
    · rw [hbeq] at h
      exact List.mem_cons_of_mem _ (ih h)
    · rw [hbeq] at h
      have hk : a = k := eq_of_beq hbeq
      have hv : v = b := Option.some.inj h
      subst hk
      subst hv
      exact List.mem_cons_self _ _

theorem scene_lookup_filter_self (l : List (String × Nat)) (n : String) :
    (l.filter (fun p => p.1 != n)).lookup n = none := by
  induction l with
  | nil => rfl
  | cons p rest ih =>
    obtain ⟨k, v⟩ := p
    by_cases hk : k = n
    · subst hk
      simp only [List.filter_cons, bne_self_eq_false, Bool.false_eq_true,
        if_false]
      exact ih
    · simp only [List.filter_cons, bne_iff_ne, ne_eq, hk, not_false_iff,
        if_true, List.lookup_cons]
      rw [show (n == k) = false from beq_eq_false_iff_ne.mpr (Ne.symm hk)]
      exact ih

theorem scene_lookup_filter_ne (l : List (String × Nat)) (n m : String)
    (h : m ≠ n) :
    (l.filter (fun p => p.1 != n)).lookup m = l.lookup m := by
  induction l with
  | nil => rfl
  | cons p rest ih =>
    obtain ⟨k, v⟩ := p
    by_cases hk : k = n
    · subst hk
      simp only [List.filter_cons, bne_self_eq_false, Bool.false_eq_true,
        if_false, List.lookup_cons]
      rw [show (m == k) = false from beq_eq_false_iff_ne.mpr h]
      exact ih
    · simp only [List.filter_cons, bne_iff_ne, ne_eq, hk, not_false_iff,
      if_true, List.lookup_cons]
      cases hbeq : m == k
      · rw [ih]
      · rfl

theorem scene_lookup_shift (l : List (String × Nat)) (i : Nat) (m : String) :
    (l.map (fun p => if i < p.2 then (p.1, p.2 - 1) else p)).lookup m
      = (l.lookup m).map (fun j => if i < j then j - 1 else j) := by
  induction l with
  | nil => rfl
  | cons p rest ih =>
    obtain ⟨k, v⟩ := p
    by_cases hv : i < v
    · simp only [List.map_cons, if_pos hv, List.lookup_cons]
      cases hbeq : m == k
      · exact ih
      · simp [hv]
    · simp only [List.map_cons, if_neg hv, List.lookup_cons]
      cases hbeq : m == k
      · exact ih
      · simp [hv]

theorem scene_addObject_inv (s : SceneState) (o : SceneObject)
    (h : s.Inv) : (s.AddObject o).Inv := by
  unfold SceneState.AddObject
  by_cases hdup : (s.objectIndex.lookup o.name).isSome
  · rw [if_pos hdup]
    exact h
  · rw [if_neg hdup]
    have hnone : s.objectIndex.lookup o.name = none :=
      Option.not_isSome_iff_eq_none.mp hdup
    obtain ⟨h1, h2⟩ := h
    constructor
    · intro p hp
      rcases List.mem_cons.mp hp with heq | hmem
      · subst heq
        refine ⟨by simp, ?_⟩
        simp only [List.get_eq_getElem]
        rw [List.getElem_append_right (by omega)]
        simp
      · obtain ⟨hlt, hname⟩ := h1 p hmem
        refine ⟨by simp; omega, ?_⟩
        simp only [List.get_eq_getElem] at hname ⊢
        rw [List.getElem_append_left hlt]
        exact hname
    · intro i
      by_cases hi : i.val < s.objects.length
      · have hget : (s.objects ++ [o]).get i = s.objects[i.val] := by
          simp only [List.get_eq_getElem]
          exact List.getElem_append_left hi
        rw [hget, List.lookup_cons]
        have hne : (s.objects[i.val].name == o.name) = false := by
          apply beq_eq_false_iff_ne.mpr
          intro hcontra
          have := h2 ⟨i.val, hi⟩
          simp only [List.get_eq_getElem] at this
          rw [hcontra] at this
          rw [hnone] at this
          exact Option.noConfusion this
        rw [hne]
        have := h2 ⟨i.val, hi⟩
        simp only [List.get_eq_getElem] at this
        exact this
      · have hieq : i.val = s.objects.length := by
          have := i.isLt
          simp at this
          omega
        have hget : (s.objects ++ [o]).get i = o := by
          simp only [List.get_eq_getElem]
          rw [List.getElem_append_right (by omega)]
          simp [hieq]
        rw [hget, List.lookup_cons]
        simp [hieq]

theorem scene_removeObject_inv (s : SceneState) (n : String)
    (h : s.Inv) : (s.RemoveObject n).Inv := by
  unfold SceneState.RemoveObject
  split
  · exact h
  · rename_i i heq
    obtain ⟨h1, h2⟩ := h
    obtain ⟨hi, hiname⟩ := h1 (n, i) (scene_lookup_mem heq)
    simp only [List.get_eq_getElem] at hiname
    have hlen : (s.objects.eraseIdx i).length = s.objects.length - 1 :=
      List.length_eraseIdx_of_lt hi
    constructor
    · intro p hp
      obtain ⟨q, hqmem, hqshift⟩ := List.mem_map.mp hp
      obtain ⟨hqmem2, hqne⟩ := List.mem_filter.mp hqmem
      rw [bne_iff_ne] at hqne
      obtain ⟨hqlt, hqname⟩ := h1 q hqmem2
      simp only [List.get_eq_getElem] at hqname
      have hqi : q.2 ≠ i := by
        intro hcontra
        have hopt : s.objects[q.2]? = s.objects[i]? := by rw [hcontra]
        have e1 : s.objects[q.2]? = some (s.objects[q.2]) :=
          List.getElem?_eq_getElem hqlt
        have e2 : s.objects[i]? = some (s.objects[i]) :=
          List.getElem?_eq_getElem hi
        have hobj : s.objects[q.2] = s.objects[i] :=
          Option.some.inj (e1.symm.trans (hopt.trans e2))
        have hnm : s.objects[q.2].name = s.objects[i].name :=
          congrArg SceneObject.name hobj
        rw [hqname, hiname] at hnm
        exact hqne hnm
      by_cases hcase : i < q.2
      · rw [if_pos hcase] at hqshift
        subst hqshift
        refine ⟨by simp only [hlen]; omega, ?_⟩
        simp only [List.get_eq_getElem]
        rw [List.getElem_eraseIdx_of_ge _ _ _ (by simp only [hlen]; omega)
          (by omega)]
        simp only [Nat.sub_add_cancel (show 1 ≤ q.2 by omega)]
        exact hqname
      · rw [if_neg hcase] at hqshift
        subst hqshift
        refine ⟨by simp only [hlen]; omega, ?_⟩
        simp only [List.get_eq_getElem]
        rw [List.getElem_eraseIdx_of_lt _ _ _ (by simp only [hlen]; omega)
          (by omega)]
        exact hqname
    · intro j
      dsimp only
      rw [scene_lookup_shift]
      have h0 : j.val < (s.objects.eraseIdx i).length := j.isLt
      have hjlt : j.val < s.objects.length - 1 := by omega
      by_cases hj : j.val < i
      · have hget : (s.objects.eraseIdx i).get j = s.objects[j.val] := by
          simp only [List.get_eq_getElem]
          exact List.getElem_eraseIdx_of_lt _ _ _ j.isLt hj
        rw [hget]
        have hlookup := h2 ⟨j.val, by omega⟩
        simp only [List.get_eq_getElem] at hlookup
        have hname_ne : s.objects[j.val].name ≠ n := by
          intro hcontra
          rw [hcontra, heq] at hlookup
          have hij := Option.some.inj hlookup
          omega
        rw [scene_lookup_filter_ne _ _ _ hname_ne, hlookup]
        simp only [Option.map_some']
        rw [if_neg (by omega)]
      · have hget : (s.objects.eraseIdx i).get j = s.objects[j.val + 1] := by
          simp only [List.get_eq_getElem]
          exact List.getElem_eraseIdx_of_ge _ _ _ j.isLt (by omega)
        rw [hget]
        have hlookup := h2 ⟨j.val + 1, by omega⟩
        simp only [List.get_eq_getElem] at hlookup
        have hname_ne : s.objects[j.val + 1].name ≠ n := by
          intro hcontra
          rw [hcontra, heq] at hlookup
          have hij := Option.some.inj hlookup
          omega
        rw [scene_lookup_filter_ne _ _ _ hname_ne, hlookup]
        simp only [Option.map_some']
        rw [if_pos (by omega)]
        simp

theorem scene_findObject_removed (s : SceneState) (n : String) :
    (s.RemoveObject n).FindObject n = none := by
  unfold SceneState.RemoveObject
  split
  · rename_i heq
    unfold SceneState.FindObject
    rw [heq]
  · rename_i i heq
    unfold SceneState.FindObject
    dsimp only
    rw [scene_lookup_shift, scene_lookup_filter_self]
    rfl

theorem scene_findObject_mem (s : SceneState) (h : s.Inv) :
    ∀ o ∈ s.objects, s.FindObject o.name = some o := by
  intro o ho
  obtain ⟨j, hj⟩ := List.mem_iff_get.mp ho
  subst hj
  unfold SceneState.FindObject
  rw [h.2 j]
  simp only [List.get_eq_getElem]
  exact List.getElem?_eq_getElem j.isLt

theorem scene_empty_inv : SceneState.empty.Inv := by
  constructor
  · intro p hp
    simp [SceneState.empty] at hp
  · intro i
    exact absurd i.isLt (by simp [SceneState.empty])



/-- C5: the name-to-index map stays consistent with the backing list
across every `AddObject`/`RemoveObject` call: both operations preserve the
invariant that each recorded index points at the object bearing that name
and each stored object is found at its own position; a duplicate-name add
is a rejected no-op (adding "A" twice to an empty scene leaves one
object); after a removal the removed name is no longer findable while
every remaining object is still found at its shifted position. -/
theorem scene_add_remove_find_consistent (s : SceneState) (o : SceneObject)
    (n : String) (h : s.Inv) :
    (s.AddObject o).Inv ∧
    (s.RemoveObject n).Inv ∧
    ((s.objectIndex.lookup o.name).isSome → s.AddObject o = s) ∧
    ((SceneState.empty.AddObject ⟨"A"⟩).AddObject ⟨"A"⟩).objects.length = 1 ∧
    (s.RemoveObject n).FindObject n = none ∧
    (∀ o2 ∈ (s.RemoveObject n).objects,
        (s.RemoveObject n).FindObject o2.name = some o2) := by
  refine ⟨scene_addObject_inv s o h, scene_removeObject_inv s n h, ?_, ?_,
    scene_findObject_removed s n, ?_⟩
  · intro hdup
    unfold SceneState.AddObject
    rw [if_pos hdup]
  · rfl
  · exact scene_findObject_mem _ (scene_removeObject_inv s n h)

/-- Witness for C5 at the empty scene, the object "B" and the name "A". -/
theorem scene_add_remove_find_consistent_witness :
    SceneState.empty.Inv ∧
    ((SceneState.empty.AddObject ⟨"B"⟩).Inv ∧
     (SceneState.empty.RemoveObject "A").Inv ∧
     ((SceneState.empty.objectIndex.lookup
         (SceneObject.name ⟨"B"⟩)).isSome →
       SceneState.empty.AddObject ⟨"B"⟩ = SceneState.empty) ∧
     ((SceneState.empty.AddObject ⟨"A"⟩).AddObject ⟨"A"⟩).objects.length
       = 1 ∧
     (SceneState.empty.RemoveObject "A").FindObject "A" = none ∧
     (∀ o2 ∈ (SceneState.empty.RemoveObject "A").objects,
         (SceneState.empty.RemoveObject "A").FindObject o2.name
           = some o2)) :=
  ⟨scene_empty_inv,
   scene_add_remove_find_consistent SceneState.empty ⟨"B"⟩ "A"
     scene_empty_inv⟩

end Theorems

end Engine
